import Mathlib

/-!
Verification of the parametric-curve-fitting repository.

The Python sources are shallowly embedded over the real numbers:
numpy arrays become `List ℝ`, a pandas data frame becomes a header plus a
list of rows of optional cells (`none` models a NaN / missing cell), a
raised Python exception becomes `Except.error` with the exception message,
and the float NaN that `np.mean` produces on an empty list becomes the
`PyVal.nan` constructor.  The scipy minimizers and the numpy
Mersenne-Twister stream are external library code, so they enter the
embedding as abstract function parameters; the global numpy random state
is modelled as the pair of the last seed and the number of draws made
since that seed was set.
-/

namespace CurveFit

noncomputable section

/-- `deg_to_rad` from `src/model.py`: `np.deg2rad(degrees)`. -/
def deg_to_rad (degrees : ℝ) : ℝ := degrees * (Real.pi / 180)

/-- `rad_to_deg` from `src/model.py`: `np.rad2deg(radians)`. -/
def rad_to_deg (radians : ℝ) : ℝ := radians * (180 / Real.pi)

/-- One component pair of `predict` from `src/model.py`, at a single `t`:
`x(t) = t·cos θ − exp(M·|t|)·sin(0.3 t)·sin θ + X`,
`y(t) = 42 + t·sin θ + exp(M·|t|)·sin(0.3 t)·cos θ`, with `θ = deg_to_rad theta_deg`. -/
def predictPoint (theta_deg M X t : ℝ) : ℝ × ℝ :=
  let theta_rad := deg_to_rad theta_deg
  let cos_theta := Real.cos theta_rad
  let sin_theta := Real.sin theta_rad
  let exp_term := Real.exp (M * |t|)
  let sin_03t := Real.sin (0.3 * t)
  (t * cos_theta - exp_term * sin_03t * sin_theta + X,
   42 + t * sin_theta + exp_term * sin_03t * cos_theta)

/-- `predict` from `src/model.py`: the vectorized numpy expression acts
element-wise over the input array `t` and returns the pair of arrays
`(x, y)`. -/
def predict (t : List ℝ) (theta_deg M X : ℝ) : List ℝ × List ℝ :=
  (t.map fun ti => (predictPoint theta_deg M X ti).1,
   t.map fun ti => (predictPoint theta_deg M X ti).2)

/-- A Python float that may be the IEEE NaN (produced by `np.mean` of an
empty array); every other value reached by this code is an ordinary real. -/
inductive PyVal where
  | nan : PyVal
  | num : ℝ → PyVal
  deriving DecidableEq

/-- `np.min` over a 1-D array: raises `ValueError` on a zero-size array,
otherwise folds the binary minimum over the elements. -/
def npMin : List ℝ → Except String ℝ
  | [] => .error "zero-size array to reduction operation minimum which has no identity"
  | x :: xs => .ok (xs.foldl min x)

/-- `np.mean` over a 1-D array: NaN on a zero-size array, otherwise the sum
divided by the length. -/
def npMean (l : List ℝ) : PyVal :=
  if l = [] then .nan else .num (l.sum / l.length)

/-- The Euclidean distance computed inside the `l1_loss` loop:
`np.sqrt((x_pred - x_o)**2 + (y_pred - y_o)**2)` at one predicted point. -/
def euclDist (o q : ℝ × ℝ) : ℝ :=
  Real.sqrt ((q.1 - o.1) ^ 2 + (q.2 - o.2) ^ 2)

/-- `l1_loss` from `src/loss.py`.  It predicts the curve at `t_samples`,
then for each observed point `(x_o, y_o)` of `zip(x_obs, y_obs)` computes
the array of distances to every predicted point and appends `np.min` of it
(which raises when `t_samples` is empty), and finally returns `np.mean` of
the collected minima. -/
def l1_loss (params : ℝ × ℝ × ℝ) (t_samples : List ℝ) (x_obs y_obs : List ℝ) :
    Except String PyVal :=
  let theta_deg := params.1
  let M := params.2.1
  let X := params.2.2
  let xy := predict t_samples theta_deg M X
  let pred := xy.1.zip xy.2
  do
    let min_distances ← (x_obs.zip y_obs).mapM fun o =>
      npMin (pred.map fun q => euclDist o q)
    return npMean min_distances

/-- `compute_residuals` from `src/loss.py` (element-wise over the zipped
prediction/observation arrays). -/
def compute_residuals (x_pred y_pred x_obs y_obs : List ℝ) : List ℝ :=
  ((x_pred.zip x_obs).zip (y_pred.zip y_obs)).map fun pq =>
    Real.sqrt ((pq.1.1 - pq.1.2) ^ 2 + (pq.2.1 - pq.2.2) ^ 2)

/-- `validate_bounds` from `src/utils.py`: strict open-interval checks on the
three parameters. -/
def validate_bounds (theta_deg M X : ℝ) : Prop :=
  (0 < theta_deg ∧ theta_deg < 50) ∧ (-0.05 < M ∧ M < 0.05) ∧ (0 < X ∧ X < 100)

/-- `np.linspace(a, b, n)`: `n` evenly spaced points from `a` to `b`
inclusive (`[a]` when `n = 1`, empty when `n = 0`). -/
def linspace (a b : ℝ) (n : ℕ) : List ℝ :=
  if n = 1 then [a]
  else (List.range n).map fun i => a + (b - a) * i / (n - 1)

/-- `get_uniform_t_values` from `src/data_loader.py` at the default domain:
`np.linspace(6.0, 60.0, n)`. -/
def get_uniform_t_values (n : ℕ) : List ℝ := linspace 6 60 n

/-- The global numpy random state: the seed last installed by
`np.random.seed` together with the number of uniform draws made since. -/
structure RngState where
  seed : ℕ
  counter : ℕ
  deriving DecidableEq

/-- `np.random.seed(s)` resets the global state, discarding whatever state
was there before. -/
def npSeed (s : ℕ) (_g : RngState) : RngState := ⟨s, 0⟩

/-- The result record of a scipy minimizer: the argument `x` found and the
objective value `fun` reported there (`fval` here, `fun` being reserved). -/
structure OptResult where
  x : ℝ × ℝ × ℝ
  fval : ℝ

/-- Default used only to read entries of result lists at checked indices. -/
def someOpt : OptResult := ⟨(0, 0, 0), 0⟩

/-- The search box of `fit_params`: one `(min, max)` pair per parameter. -/
structure Bounds3 where
  theta_deg : ℝ × ℝ
  M : ℝ × ℝ
  X : ℝ × ℝ

/-- The default bounds dictionary of `fit_params`. -/
def defaultBounds : Bounds3 := ⟨(0.1, 49.9), (-0.049, 0.049), (0.1, 99.9)⟩

/-- The output record of `fit_params` (`FitResult` of the spec). -/
structure FitResult where
  theta_deg : ℝ
  theta_rad : ℝ
  M : ℝ
  X : ℝ
  l1 : ℝ

/-- A run of `fit_params`: the returned record plus whether the
bounds-violation warning was logged. -/
structure FitRun where
  result : FitResult
  warned : Prop

/-- The packaging step at the end of `fit_params`: degrees, radians, `M`,
`X` and the winning loss. -/
def mkFitResult (w : OptResult) : FitResult :=
  ⟨w.x.1, deg_to_rad w.x.1, w.x.2.1, w.x.2.2, w.fval⟩

/-- The accumulator update of the restart loop (`if result.fun < best_loss`,
with `best_loss` starting at `+∞`, so any result beats an empty best). -/
def updateBest (best : Option OptResult) (r : OptResult) : Option OptResult :=
  match best with
  | none => some r
  | some b => if r.fval < b.fval then some r else best

/-- The final comparison against the differential-evolution result
(`if de_result.fun < best_loss`); after it a best always exists. -/
def pickBest (best : Option OptResult) (r : OptResult) : OptResult :=
  match best with
  | none => r
  | some b => if r.fval < b.fval then r else b

section Optimizer

variable (sample : ℕ → ℕ → ℝ)
variable (nelderMead : ((ℝ × ℝ × ℝ) → Except String PyVal) → (ℝ × ℝ × ℝ) → List (ℝ × ℝ) → OptResult)
variable (diffEvo : ((ℝ × ℝ × ℝ) → Except String PyVal) → List (ℝ × ℝ) → ℕ → OptResult)

/-- One call of `np.random.uniform(lo, hi)` against the global state `g`:
the draw is a function of the installed seed and the position in the
stream, and the state advances by one. -/
def npUniform (lo hi : ℝ) (g : RngState) : ℝ × RngState :=
  (lo + (hi - lo) * sample g.seed g.counter, ⟨g.seed, g.counter + 1⟩)

/-- The three consecutive `np.random.uniform` calls that build the random
`x0` of a restart with `i > 0`. -/
def draw3 (b : Bounds3) (g : RngState) : (ℝ × ℝ × ℝ) × RngState :=
  let a1 := npUniform sample b.theta_deg.1 b.theta_deg.2 g
  let a2 := npUniform sample b.M.1 b.M.2 a1.2
  let a3 := npUniform sample b.X.1 b.X.2 a2.2
  ((a1.1, a2.1, a3.1), a3.2)

/-- One iteration of the restart loop of `fit_params`: pick `x0` (the
provided guess at `i = 0`, three fresh uniform draws otherwise), run the
Nelder-Mead minimization, and keep the result only if its loss is strictly
smaller than the best so far. -/
def restartStep (obj : (ℝ × ℝ × ℝ) → Except String PyVal) (guess : ℝ × ℝ × ℝ)
    (b : Bounds3) (sb : List (ℝ × ℝ)) (st : RngState × Option OptResult) (i : ℕ) :
    RngState × Option OptResult :=
  let x0g := if i = 0 then (guess, st.1) else draw3 sample b st.1
  (x0g.2, updateBest st.2 (nelderMead obj x0g.1 sb))

/-- The whole restart loop `for i in range(n_restarts)` of `fit_params`. -/
def restartFold (obj : (ℝ × ℝ × ℝ) → Except String PyVal) (guess : ℝ × ℝ × ℝ)
    (b : Bounds3) (sb : List (ℝ × ℝ)) (g : RngState) (n : ℕ) :
    RngState × Option OptResult :=
  (List.range n).foldl (restartStep sample nelderMead obj guess b sb) (g, none)

/-- The optimization result `fit_params` selects: the strict-`<` fold over
the restart results followed by the strict-`<` comparison with the
differential-evolution result. -/
def fitWinner (g0 : RngState) (x_obs y_obs : List ℝ) (initial_guess : Option (ℝ × ℝ × ℝ))
    (n_samples : ℕ) (bounds : Option Bounds3) (n_restarts : ℕ) (seed : ℕ) : OptResult :=
  let g := npSeed seed g0
  let b := bounds.getD defaultBounds
  let t_samples := get_uniform_t_values n_samples
  let sb := [b.theta_deg, b.M, b.X]
  let guess := initial_guess.getD (25, 0, 50)
  let obj := fun p => l1_loss p t_samples x_obs y_obs
  let st := restartFold sample nelderMead obj guess b sb g n_restarts
  let de := diffEvo obj sb seed
  pickBest st.2 de

/-- `fit_params` from `src/optimizer.py`.  `g0` is the ambient global numpy
random state at call time (reset by the leading `np.random.seed(seed)`);
`nelderMead` and `diffEvo` stand for the two scipy minimizers, which are
external library code.  The `warned` field records whether the
`validate_bounds` warning was logged; the result record is packaged from
the winning parameters either way. -/
def fit_params (g0 : RngState) (x_obs y_obs : List ℝ) (initial_guess : Option (ℝ × ℝ × ℝ))
    (n_samples : ℕ) (bounds : Option Bounds3) (n_restarts : ℕ) (seed : ℕ) : FitRun :=
  let w := fitWinner sample nelderMead diffEvo g0 x_obs y_obs initial_guess n_samples
    bounds n_restarts seed
  { result := mkFitResult w
    warned := ¬ validate_bounds w.x.1 w.x.2.1 w.x.2.2 }

/-- The starting vector of restart `i`, precomputed: the provided guess at
`i = 0`, and for `i = k + 1` the three uniform draws made at stream
positions `3k`, `3k + 1`, `3k + 2` after seeding. -/
def restartStart (guess : ℝ × ℝ × ℝ) (b : Bounds3) (seed : ℕ) : ℕ → ℝ × ℝ × ℝ
  | 0 => guess
  | k + 1 => (draw3 sample b ⟨seed, 3 * k⟩).1

/-- The list of local-minimization results, one per restart index, computed
from the precomputed starting vectors. -/
def localResults (obj : (ℝ × ℝ × ℝ) → Except String PyVal) (guess : ℝ × ℝ × ℝ)
    (b : Bounds3) (sb : List (ℝ × ℝ)) (seed n : ℕ) : List OptResult :=
  (List.range n).map fun i => nelderMead obj (restartStart sample guess b seed i) sb

end Optimizer

/-- A pandas data frame as `pd.read_csv` yields it: a header of column
names plus rows of cells, a missing cell (NaN) being `none`.  `read_csv`
mangles duplicate column names, so header entries are distinct. -/
structure PyDF where
  header : List String
  rows : List (List (Option ℝ))

/-- Column selection `df[c]`: the cell of each row at the position of `c`
in the header. -/
def getCol (df : PyDF) (c : String) : List (Option ℝ) :=
  df.rows.map fun r => r.getD (df.header.indexOf c) none

/-- `load_data` from `src/data_loader.py`.  The input is the outcome of
`pd.read_csv(path)`: `none` when the file is missing (the re-raised
`FileNotFoundError`), otherwise the parsed frame.  The checks run in
source order; on success the frame is restricted to the `x` and `y`
columns. -/
def load_data (src : Option PyDF) (path : String) : Except String PyDF :=
  match src with
  | none => .error ("Data file not found: " ++ path)
  | some df =>
    if ¬ ("x" ∈ df.header ∧ "y" ∈ df.header) then
      .error "CSV must contain \x27x\x27 and \x27y\x27 columns"
    else if df.rows.length < 10 then
      .error ("Insufficient data: " ++ toString df.rows.length ++ " rows (minimum 10 required)")
    else if (getCol df "x" ++ getCol df "y").any (fun v => v.isNone) then
      .error "Data contains NaN values"
    else
      .ok { header := ["x", "y"]
            rows := df.rows.map fun r =>
              [r.getD (df.header.indexOf "x") none, r.getD (df.header.indexOf "y") none] }

/-! ## Helper lemmas about the loss evaluator -/

theorem foldl_min_le (xs : List ℝ) (x y : ℝ) (hy : y ∈ x :: xs) : xs.foldl min x ≤ y := by
  induction xs generalizing x y with
  | nil =>
    simp only [List.mem_singleton] at hy
    simp [hy]
  | cons a t ih =>
    simp only [List.foldl_cons]
    have hbase : t.foldl min (min x a) ≤ min x a :=
      ih (min x a) (min x a) (List.mem_cons_self _ _)
    rcases List.mem_cons.mp hy with rfl | hy'
    · exact hbase.trans (min_le_left _ _)
    · rcases List.mem_cons.mp hy' with rfl | hy''
      · exact hbase.trans (min_le_right _ _)
      · exact ih (min x a) y (List.mem_cons_of_mem _ hy'')

theorem foldl_min_mem (xs : List ℝ) (x : ℝ) : xs.foldl min x ∈ x :: xs := by
  induction xs generalizing x with
  | nil => simp
  | cons a t ih =>
    simp only [List.foldl_cons]
    have hsplit : min x a = x ∨ min x a = a := by
      rcases le_total x a with h | h
      · exact Or.inl (min_eq_left h)
      · exact Or.inr (min_eq_right h)
    rcases List.mem_cons.mp (ih (min x a)) with h1 | h1
    · rcases hsplit with h2 | h2 <;> rw [h1, h2]
      · exact List.mem_cons_self _ _
      · exact List.mem_cons_of_mem _ (List.mem_cons_self _ _)
    · exact List.mem_cons_of_mem _ (List.mem_cons_of_mem _ h1)

theorem mapM_ok {α β : Type} (f : α → Except String β) (g : α → β) (l : List α)
    (h : ∀ a ∈ l, f a = .ok (g a)) : l.mapM f = .ok (l.map g) := by
  induction l with
  | nil => rfl
  | cons a t ih =>
    rw [List.mapM_cons, h a (List.mem_cons_self _ _),
      ih fun b hb => h b (List.mem_cons_of_mem _ hb)]
    rfl

theorem mapM_error_head {α β : Type} (f : α → Except String β) (a : α) (t : List α)
    (e : String) (h : f a = .error e) : (a :: t).mapM f = .error e := by
  rw [List.mapM_cons, h]
  rfl

theorem predict_zip (ts : List ℝ) (θ M X : ℝ) :
    (predict ts θ M X).1.zip (predict ts θ M X).2 =
      ts.map fun u => predictPoint θ M X u := by
  simp [predict, List.zip_map']

/-- The value the `l1_loss` loop appends for one observed point `o` when the
sample list is the non-empty `u :: us`: the folded minimum of the distances
from `o` to the predicted points. -/
def minDistTo (θ M X : ℝ) (o : ℝ × ℝ) (u : ℝ) (us : List ℝ) : ℝ :=
  (us.map fun v => euclDist o (predictPoint θ M X v)).foldl min
    (euclDist o (predictPoint θ M X u))

theorem minDistTo_le (θ M X : ℝ) (o : ℝ × ℝ) (u : ℝ) (us : List ℝ) (v : ℝ)
    (hv : v ∈ u :: us) :
    minDistTo θ M X o u us ≤ euclDist o (predictPoint θ M X v) := by
  apply foldl_min_le
  rcases List.mem_cons.mp hv with rfl | hv'
  · exact List.mem_cons_self _ _
  · exact List.mem_cons_of_mem _ (List.mem_map_of_mem _ hv')

theorem minDistTo_attained (θ M X : ℝ) (o : ℝ × ℝ) (u : ℝ) (us : List ℝ) :
    ∃ v ∈ u :: us, minDistTo θ M X o u us = euclDist o (predictPoint θ M X v) := by
  rcases List.mem_cons.mp
      (foldl_min_mem (us.map fun v => euclDist o (predictPoint θ M X v))
        (euclDist o (predictPoint θ M X u))) with h1 | h1
  · exact ⟨u, List.mem_cons_self _ _, h1⟩
  · obtain ⟨v, hv, hveq⟩ := List.mem_map.mp h1
    exact ⟨v, List.mem_cons_of_mem _ hv, hveq.symm⟩

theorem euclDist_nonneg (o q : ℝ × ℝ) : 0 ≤ euclDist o q := Real.sqrt_nonneg _

theorem minDistTo_nonneg (θ M X : ℝ) (o : ℝ × ℝ) (u : ℝ) (us : List ℝ) :
    0 ≤ minDistTo θ M X o u us := by
  obtain ⟨v, _, h⟩ := minDistTo_attained θ M X o u us
  rw [h]
  exact euclDist_nonneg _ _

theorem l1_loss_ok (p : ℝ × ℝ × ℝ) (u : ℝ) (us : List ℝ) (xo yo : List ℝ) :
    l1_loss p (u :: us) xo yo =
      .ok (npMean ((xo.zip yo).map fun o => minDistTo p.1 p.2.1 p.2.2 o u us)) := by
  have hmapM : ((xo.zip yo).mapM fun o =>
      npMin (((predict (u :: us) p.1 p.2.1 p.2.2).1.zip
        (predict (u :: us) p.1 p.2.1 p.2.2).2).map fun q => euclDist o q))
      = .ok ((xo.zip yo).map fun o => minDistTo p.1 p.2.1 p.2.2 o u us) := by
    apply mapM_ok
    intro o _
    rw [predict_zip, List.map_map]
    simp [npMin, minDistTo, Function.comp_def]
  simp only [l1_loss, hmapM]
  rfl

/-! ## Theorems for claims C1, C6, C7 -/

/-- C1: for every parameter vector, non-empty sample list and non-empty
observed set, `l1_loss` returns the arithmetic mean, over the observed
points, of the minimum Euclidean distance from each observed point to the
set of curve points obtained by evaluating the model at every `t` in
`t_samples` (an all-pairs point-to-sample minimum). -/
theorem l1_loss_is_mean_of_min_distances (p : ℝ × ℝ × ℝ) (ts xo yo : List ℝ)
    (hts : ts ≠ []) (hobs : xo.zip yo ≠ []) :
    ∃ mins : List ℝ,
      mins.length = (xo.zip yo).length ∧
      (∀ i, i < mins.length →
        (∀ u ∈ ts, mins.getD i 0 ≤
          euclDist ((xo.zip yo).getD i (0, 0)) (predictPoint p.1 p.2.1 p.2.2 u)) ∧
        (∃ u ∈ ts, mins.getD i 0 =
          euclDist ((xo.zip yo).getD i (0, 0)) (predictPoint p.1 p.2.1 p.2.2 u))) ∧
      l1_loss p ts xo yo = .ok (.num (mins.sum / (mins.length : ℝ))) := by
  obtain ⟨u, us, rfl⟩ := List.exists_cons_of_ne_nil hts
  refine ⟨(xo.zip yo).map fun o => minDistTo p.1 p.2.1 p.2.2 o u us, by simp, ?_, ?_⟩
  · intro i hi
    rw [List.length_map] at hi
    have hgd : ((xo.zip yo).map fun o => minDistTo p.1 p.2.1 p.2.2 o u us).getD i 0
        = minDistTo p.1 p.2.1 p.2.2 ((xo.zip yo).getD i (0, 0)) u us := by
      rw [List.getD_eq_getElem _ _ (by simpa using hi), List.getElem_map,
        List.getD_eq_getElem _ _ hi]
    rw [hgd]
    exact ⟨fun v hv => minDistTo_le _ _ _ _ _ _ _ hv, minDistTo_attained _ _ _ _ _ _⟩
  · rw [l1_loss_ok]
    have hne : ((xo.zip yo).map fun o => minDistTo p.1 p.2.1 p.2.2 o u us) ≠ [] := by
      simpa using hobs
    simp [npMean, hne]

/-- C6: with a non-empty sample list and non-empty observed set, `l1_loss`
returns a non-negative value, and the value is exactly `0` whenever every
observed point coincides with some curve point predicted at one of the
`t` samples. -/
theorem l1_loss_nonneg_and_zero_on_curve (p : ℝ × ℝ × ℝ) (ts xo yo : List ℝ)
    (hts : ts ≠ []) (hobs : xo.zip yo ≠ []) :
    ∃ v : ℝ, l1_loss p ts xo yo = .ok (.num v) ∧ 0 ≤ v ∧
      ((∀ o ∈ xo.zip yo, ∃ u ∈ ts, predictPoint p.1 p.2.1 p.2.2 u = o) → v = 0) := by
  obtain ⟨u, us, rfl⟩ := List.exists_cons_of_ne_nil hts
  have hne : ((xo.zip yo).map fun o => minDistTo p.1 p.2.1 p.2.2 o u us) ≠ [] := by
    simpa using hobs
  refine ⟨((xo.zip yo).map fun o => minDistTo p.1 p.2.1 p.2.2 o u us).sum /
      (((xo.zip yo).map fun o => minDistTo p.1 p.2.1 p.2.2 o u us).length : ℝ), ?_, ?_, ?_⟩
  · rw [l1_loss_ok]
    simp [npMean, hne]
  · apply div_nonneg
    · apply List.sum_nonneg
      intro m hm
      obtain ⟨o, _, rfl⟩ := List.mem_map.mp hm
      exact minDistTo_nonneg _ _ _ _ _ _
    · exact Nat.cast_nonneg _
  · intro hzero
    have hall0 : ∀ m ∈ (xo.zip yo).map fun o => minDistTo p.1 p.2.1 p.2.2 o u us, m = 0 := by
      intro m hm
      obtain ⟨o, ho, rfl⟩ := List.mem_map.mp hm
      obtain ⟨w, hw, hweq⟩ := hzero o ho
      have hle : minDistTo p.1 p.2.1 p.2.2 o u us ≤ 0 := by
        have := minDistTo_le p.1 p.2.1 p.2.2 o u us w hw
        rw [hweq] at this
        simpa [euclDist] using this
      exact le_antisymm hle (minDistTo_nonneg _ _ _ _ _ _)
    rw [List.sum_eq_zero hall0]
    simp

/-- C7 (amended): called with an empty `t_samples` array and at least one
observed point, `l1_loss` raises numpy's zero-size-reduction `ValueError`
(from `np.min` of an empty distance array) instead of returning NaN or any
other value. -/
theorem l1_loss_empty_samples_raises (p : ℝ × ℝ × ℝ) (x1 y1 : ℝ) (xr yr : List ℝ) :
    l1_loss p [] (x1 :: xr) (y1 :: yr) =
      .error "zero-size array to reduction operation minimum which has no identity" := by
  have h : (((x1, y1) :: xr.zip yr).mapM fun o =>
      npMin ((((predict [] p.1 p.2.1 p.2.2).1.zip
        (predict [] p.1 p.2.1 p.2.2).2).map fun q => euclDist o q)))
      = .error "zero-size array to reduction operation minimum which has no identity" :=
    mapM_error_head _ _ _ _ rfl
  simp only [l1_loss, List.zip_cons_cons, h]
  rfl

/-- C7 counterexample: at a concrete input with one observed point and empty
`t_samples`, `l1_loss` does not return NaN (it returns no value at all: the
call raises numpy's zero-size-reduction `ValueError`). -/
theorem l1_loss_empty_samples_not_nan :
    l1_loss (25, 0, 50) [] [1] [2] =
      .error "zero-size array to reduction operation minimum which has no identity" ∧
    ∀ v : PyVal, l1_loss (25, 0, 50) [] [1] [2] ≠ .ok v := by
  have h1 : l1_loss (25, 0, 50) [] [1] [2] =
      .error "zero-size array to reduction operation minimum which has no identity" := rfl
  refine ⟨h1, fun v h => ?_⟩
  rw [h1] at h
  simp at h

/-- C1 witness at a concrete input. -/
theorem l1_loss_is_mean_of_min_distances_witness :
    ∃ mins : List ℝ,
      mins.length = (([3, 4] : List ℝ).zip ([5, 6] : List ℝ)).length ∧
      (∀ i, i < mins.length →
        (∀ u ∈ ([6, 7] : List ℝ), mins.getD i 0 ≤
          euclDist ((([3, 4] : List ℝ).zip ([5, 6] : List ℝ)).getD i (0, 0))
            (predictPoint (25 : ℝ) 0 50 u)) ∧
        (∃ u ∈ ([6, 7] : List ℝ), mins.getD i 0 =
          euclDist ((([3, 4] : List ℝ).zip ([5, 6] : List ℝ)).getD i (0, 0))
            (predictPoint (25 : ℝ) 0 50 u))) ∧
      l1_loss (25, 0, 50) [6, 7] [3, 4] [5, 6] = .ok (.num (mins.sum / (mins.length : ℝ))) :=
  l1_loss_is_mean_of_min_distances (25, 0, 50) [6, 7] [3, 4] [5, 6] (by simp) (by simp)

/-! ## Helper lemmas about the optimization engine -/

/-- The first element of a result list achieving the minimal loss, the
selection induced by accumulating with a strict `<` update rule. -/
def firstMin : List OptResult → Option OptResult
  | [] => none
  | r :: rs =>
    match firstMin rs with
    | none => some r
    | some c => if c.fval < r.fval then some c else some r

/-- Merging an already-held best `b` with the outcome of the rest of the
scan (`b` wins ties, having come first). -/
def mergeBest (b : OptResult) (o : Option OptResult) : OptResult :=
  match o with
  | none => b
  | some c => if c.fval < b.fval then c else b

theorem foldl_updateBest_some (l : List OptResult) (b : OptResult) :
    l.foldl updateBest (some b) = some (mergeBest b (firstMin l)) := by
  induction l generalizing b with
  | nil => rfl
  | cons r rs ih =>
    have hstep : updateBest (some b) r = some (if r.fval < b.fval then r else b) := by
      simp only [updateBest]
      by_cases h1 : r.fval < b.fval <;> simp [h1]
    rw [List.foldl_cons, hstep, ih]
    cases h : firstMin rs with
    | none => simp [firstMin, h, mergeBest]
    | some c =>
      simp only [firstMin, h, mergeBest]
      by_cases h1 : r.fval < b.fval <;> by_cases h2 : c.fval < r.fval
      · simp [h1, h2, h2.trans h1]
      · simp [h1, h2]
      · simp [h1, h2]
      · have h3 : ¬ c.fval < b.fval := not_lt.mpr ((not_lt.mp h1).trans (not_lt.mp h2))
        simp [h1, h2, h3]

theorem foldl_updateBest_none (l : List OptResult) :
    l.foldl updateBest none = firstMin l := by
  cases l with
  | nil => rfl
  | cons r rs =>
    rw [List.foldl_cons]
    show rs.foldl updateBest (some r) = _
    rw [foldl_updateBest_some]
    cases h : firstMin rs with
    | none => simp [firstMin, h, mergeBest]
    | some c =>
      simp only [firstMin, h, mergeBest]
      by_cases h2 : c.fval < r.fval <;> simp [h2]

theorem firstMin_append_single (l : List OptResult) (de : OptResult) :
    firstMin (l ++ [de]) = some (pickBest (firstMin l) de) := by
  induction l with
  | nil => rfl
  | cons r rs ih =>
    rw [List.cons_append]
    simp only [firstMin]
    rw [ih]
    cases h : firstMin rs with
    | none =>
      simp only [h, pickBest]
      by_cases h1 : de.fval < r.fval <;> simp [h1]
    | some c =>
      simp only [h, pickBest]
      by_cases h1 : de.fval < c.fval <;> by_cases h2 : c.fval < r.fval
      · simp [h1, h2, h1.trans h2]
      · by_cases h4 : de.fval < r.fval <;> simp [h1, h2, h4]
      · simp [h1, h2]
      · have h3 : ¬ de.fval < r.fval := not_lt.mpr ((not_lt.mp h2).trans (not_lt.mp h1))
        simp [h1, h2, h3]

theorem firstMin_argmin (l : List OptResult) (hl : l ≠ []) :
    ∃ k, k < l.length ∧ firstMin l = some (l.getD k someOpt) ∧
      (∀ j, j < l.length → (l.getD k someOpt).fval ≤ (l.getD j someOpt).fval) ∧
      (∀ j, j < k → (l.getD k someOpt).fval < (l.getD j someOpt).fval) := by
  induction l with
  | nil => exact absurd rfl hl
  | cons r rs ih =>
    by_cases hrs : rs = []
    · subst hrs
      refine ⟨0, by simp, rfl, ?_, by intro j hj; exact absurd hj (by omega)⟩
      intro j hj
      cases j with
      | zero => simp
      | succ j' =>
        simp only [List.length_singleton] at hj
        omega
    · obtain ⟨k, hk, hfm, hle, hlt⟩ := ih hrs
      by_cases hc : (rs.getD k someOpt).fval < r.fval
      · refine ⟨k + 1, by simpa using hk, ?_, ?_, ?_⟩
        · simp only [firstMin, hfm, List.getD_cons_succ]
          rw [if_pos hc]
        · intro j hj
          cases j with
          | zero => simpa using le_of_lt hc
          | succ j' =>
            simp only [List.getD_cons_succ]
            exact hle j' (by simpa using hj)
        · intro j hj
          cases j with
          | zero => simpa using hc
          | succ j' =>
            simp only [List.getD_cons_succ]
            exact hlt j' (by omega)
      · refine ⟨0, by simp, ?_, ?_, by intro j hj; exact absurd hj (by omega)⟩
        · simp only [firstMin, hfm]
          rw [if_neg hc]
          simp
        · intro j hj
          cases j with
          | zero => simp
          | succ j' =>
            simp only [List.getD_cons_zero, List.getD_cons_succ]
            have hj' : j' < rs.length := by
              simp only [List.length_cons] at hj
              omega
            exact (not_lt.mp hc).trans (hle j' hj')

section OptimizerLemmas

variable (sample : ℕ → ℕ → ℝ)
variable (nelderMead : ((ℝ × ℝ × ℝ) → Except String PyVal) → (ℝ × ℝ × ℝ) → List (ℝ × ℝ) → OptResult)
variable (diffEvo : ((ℝ × ℝ × ℝ) → Except String PyVal) → List (ℝ × ℝ) → ℕ → OptResult)

theorem draw3_snd (b : Bounds3) (g : RngState) :
    (draw3 sample b g).2 = ⟨g.seed, g.counter + 3⟩ := rfl

theorem localResults_succ (obj : (ℝ × ℝ × ℝ) → Except String PyVal) (guess : ℝ × ℝ × ℝ)
    (b : Bounds3) (sb : List (ℝ × ℝ)) (seed n : ℕ) :
    localResults sample nelderMead obj guess b sb seed (n + 1) =
      localResults sample nelderMead obj guess b sb seed n ++
        [nelderMead obj (restartStart sample guess b seed n) sb] := by
  simp [localResults, List.range_succ]

theorem restartFold_eq (obj : (ℝ × ℝ × ℝ) → Except String PyVal) (guess : ℝ × ℝ × ℝ)
    (b : Bounds3) (sb : List (ℝ × ℝ)) (seed : ℕ) :
    ∀ n, restartFold sample nelderMead obj guess b sb ⟨seed, 0⟩ n =
      (⟨seed, 3 * (n - 1)⟩,
       (localResults sample nelderMead obj guess b sb seed n).foldl updateBest none) := by
  intro n
  induction n with
  | zero => rfl
  | succ m ih =>
    have hfold : restartFold sample nelderMead obj guess b sb ⟨seed, 0⟩ (m + 1)
        = (restartStep sample nelderMead obj guess b sb
            (restartFold sample nelderMead obj guess b sb ⟨seed, 0⟩ m) m) := by
      simp [restartFold, List.range_succ]
    rw [hfold, ih, localResults_succ, List.foldl_append, List.foldl_cons, List.foldl_nil]
    cases m with
    | zero =>
      simp [restartStep, restartStart, localResults]
    | succ m' =>
      have hne : m' + 1 ≠ 0 := Nat.succ_ne_zero m'
      simp only [restartStep, if_neg hne, draw3_snd]
      have h1 : restartStart sample guess b seed (m' + 1)
          = (draw3 sample b ⟨seed, 3 * m'⟩).1 := rfl
      have h2 : (3 : ℕ) * (m' + 1 - 1) = 3 * m' := by omega
      have h3 : (3 : ℕ) * m' + 3 = 3 * (m' + 1 + 1 - 1) := by omega
      simp [h1, h2, h3]

end OptimizerLemmas

/-! ## Concrete instantiations used by counterexamples and witnesses -/

/-- A concrete stand-in for the numpy uniform stream. -/
def echoSample : ℕ → ℕ → ℝ := fun _ _ => 1 / 2

/-- A concrete stand-in minimizer that reports its starting point with
objective value `0`, exposing which `x0` each restart used. -/
def echoNM : ((ℝ × ℝ × ℝ) → Except String PyVal) → (ℝ × ℝ × ℝ) → List (ℝ × ℝ) → OptResult :=
  fun _ x0 _ => ⟨x0, 0⟩

/-- A concrete stand-in for `differential_evolution`, returning a fixed
out-of-bounds point with objective value `1`. -/
def constDE : ((ℝ × ℝ × ℝ) → Except String PyVal) → List (ℝ × ℝ) → ℕ → OptResult :=
  fun _ _ _ => ⟨(1, 1, 1), 1⟩

/-- A concrete trivial objective for witness instantiations. -/
def okNanObj : (ℝ × ℝ × ℝ) → Except String PyVal := fun _ => .ok .nan

/-- The objective function `fit_params` hands to both minimizers. -/
def runObj (xo yo : List ℝ) (ns : ℕ) : (ℝ × ℝ × ℝ) → Except String PyVal :=
  fun p => l1_loss p (get_uniform_t_values ns) xo yo

/-- The bounds list `fit_params` hands to both minimizers. -/
def scipyBounds (b : Bounds3) : List (ℝ × ℝ) := [b.theta_deg, b.M, b.X]

/-- All candidate results of one `fit_params` run in computation order: the
`n_restarts` local results followed by the single differential-evolution
result, which is always present. -/
def allResults (sample : ℕ → ℕ → ℝ)
    (nelderMead : ((ℝ × ℝ × ℝ) → Except String PyVal) → (ℝ × ℝ × ℝ) → List (ℝ × ℝ) → OptResult)
    (diffEvo : ((ℝ × ℝ × ℝ) → Except String PyVal) → List (ℝ × ℝ) → ℕ → OptResult)
    (xo yo : List ℝ) (ig : Option (ℝ × ℝ × ℝ)) (ns : ℕ)
    (bounds : Option Bounds3) (nr seed : ℕ) : List OptResult :=
  localResults sample nelderMead (runObj xo yo ns) (ig.getD (25, 0, 50))
      (bounds.getD defaultBounds) (scipyBounds (bounds.getD defaultBounds)) seed nr
    ++ [diffEvo (runObj xo yo ns) (scipyBounds (bounds.getD defaultBounds)) seed]

/-! ## Theorems for claims C2, C3, C4, C8 -/

/-- C2: in every run of `fit_params` the differential-evolution result is
one of the candidates regardless of the restarts' losses (the candidate
list is the restart results *followed by* the DE result), and the returned
record is packaged from the earliest candidate attaining the minimal loss:
every strictly earlier candidate has strictly larger loss, so on a tie in
loss value the result computed first wins and the best local-restart result
beats an equal global-search result. -/
theorem fit_de_always_runs_strict_tiebreak (sample : ℕ → ℕ → ℝ)
    (nelderMead : ((ℝ × ℝ × ℝ) → Except String PyVal) → (ℝ × ℝ × ℝ) → List (ℝ × ℝ) → OptResult)
    (diffEvo : ((ℝ × ℝ × ℝ) → Except String PyVal) → List (ℝ × ℝ) → ℕ → OptResult)
    (g0 : RngState) (xo yo : List ℝ) (ig : Option (ℝ × ℝ × ℝ)) (ns : ℕ)
    (bounds : Option Bounds3) (nr seed : ℕ) :
    (allResults sample nelderMead diffEvo xo yo ig ns bounds nr seed).length = nr + 1 ∧
    ∃ k, k < (allResults sample nelderMead diffEvo xo yo ig ns bounds nr seed).length ∧
      (fit_params sample nelderMead diffEvo g0 xo yo ig ns bounds nr seed).result
        = mkFitResult ((allResults sample nelderMead diffEvo xo yo ig ns bounds nr seed).getD k someOpt) ∧
      (∀ j, j < (allResults sample nelderMead diffEvo xo yo ig ns bounds nr seed).length →
        ((allResults sample nelderMead diffEvo xo yo ig ns bounds nr seed).getD k someOpt).fval ≤
          ((allResults sample nelderMead diffEvo xo yo ig ns bounds nr seed).getD j someOpt).fval) ∧
      (∀ j, j < k →
        ((allResults sample nelderMead diffEvo xo yo ig ns bounds nr seed).getD k someOpt).fval <
          ((allResults sample nelderMead diffEvo xo yo ig ns bounds nr seed).getD j someOpt).fval) := by
  have h0 : fitWinner sample nelderMead diffEvo g0 xo yo ig ns bounds nr seed
      = pickBest (restartFold sample nelderMead (runObj xo yo ns) (ig.getD (25, 0, 50))
            (bounds.getD defaultBounds) (scipyBounds (bounds.getD defaultBounds)) ⟨seed, 0⟩ nr).2
          (diffEvo (runObj xo yo ns) (scipyBounds (bounds.getD defaultBounds)) seed) := rfl
  rw [restartFold_eq, foldl_updateBest_none] at h0
  have hfm : firstMin (allResults sample nelderMead diffEvo xo yo ig ns bounds nr seed)
      = some (fitWinner sample nelderMead diffEvo g0 xo yo ig ns bounds nr seed) := by
    rw [h0, allResults, firstMin_append_single]
  have hne : allResults sample nelderMead diffEvo xo yo ig ns bounds nr seed ≠ [] := by
    simp [allResults]
  obtain ⟨k, hk, hfk, hle, hlt⟩ :=
    firstMin_argmin (allResults sample nelderMead diffEvo xo yo ig ns bounds nr seed) hne
  have hwk : fitWinner sample nelderMead diffEvo g0 xo yo ig ns bounds nr seed
      = (allResults sample nelderMead diffEvo xo yo ig ns bounds nr seed).getD k someOpt :=
    Option.some.inj (hfm.symm.trans hfk)
  refine ⟨by simp [allResults, localResults], k, hk, ?_, hle, hlt⟩
  show mkFitResult (fitWinner sample nelderMead diffEvo g0 xo yo ig ns bounds nr seed) = _
  rw [hwk]

/-- C3 (amended): with `n_restarts ≥ 1`, the restart loop of `fit_params`
runs exactly the local minimizations started from the precomputed
`restartStart` vectors; restart `0` starts from the caller's guess (the
canonical `(25, 0, 50)` only when `initial_guess` is omitted, since a
supplied guess replaces it); each restart `i > 0` starts from the three
fresh uniform draws taken at stream positions `3(i−1)`, `3(i−1)+1`,
`3(i−1)+2` of the generator seeded from `seed`, so every draw strictly
advances the shared state, distinct restarts consume distinct generator
states, and the start sequence is a function of `seed` alone. -/
theorem fit_restart_start_vectors (sample : ℕ → ℕ → ℝ)
    (nelderMead : ((ℝ × ℝ × ℝ) → Except String PyVal) → (ℝ × ℝ × ℝ) → List (ℝ × ℝ) → OptResult)
    (obj : (ℝ × ℝ × ℝ) → Except String PyVal) (guess : ℝ × ℝ × ℝ)
    (b : Bounds3) (sb : List (ℝ × ℝ)) (g0 : RngState) (seed nr : ℕ) (_hnr : 1 ≤ nr) :
    restartFold sample nelderMead obj guess b sb (npSeed seed g0) nr
      = (⟨seed, 3 * (nr - 1)⟩,
         (localResults sample nelderMead obj guess b sb seed nr).foldl updateBest none)
    ∧ restartStart sample guess b seed 0 = guess
    ∧ (∀ i : ℕ, 1 ≤ i →
        restartStart sample guess b seed i
          = ((npUniform sample b.theta_deg.1 b.theta_deg.2 ⟨seed, 3 * (i - 1)⟩).1,
             (npUniform sample b.M.1 b.M.2 ⟨seed, 3 * (i - 1) + 1⟩).1,
             (npUniform sample b.X.1 b.X.2 ⟨seed, 3 * (i - 1) + 2⟩).1))
    ∧ (∀ i j : ℕ, 1 ≤ i → 1 ≤ j → i ≠ j →
        (⟨seed, 3 * (i - 1)⟩ : RngState) ≠ ⟨seed, 3 * (j - 1)⟩) := by
  refine ⟨?_, rfl, ?_, ?_⟩
  · exact restartFold_eq sample nelderMead obj guess b sb seed nr
  · intro i hi
    cases i with
    | zero => omega
    | succ k => rfl
  · intro i j hi hj hij hEq
    rw [RngState.mk.injEq] at hEq
    omega

/-- C3 counterexample: a run of `fit_params` with `n_restarts = 1` and a
caller-supplied `initial_guess = (30, 0.01, 40)`.  The stand-in minimizer
reports its own starting point, and the run's returned `theta_deg` is `30`:
restart `0` started from the supplied guess, not from the canonical
`(25, 0, 50)` the claim asserts for every run. -/
theorem fit_restart0_not_always_canonical :
    (fit_params echoSample echoNM constDE ⟨0, 0⟩ [] [] (some (30, 1 / 100, 40))
        5 none 1 42).result.theta_deg = 30 ∧
    (30 : ℝ) ≠ 25 := by
  constructor
  · have h1 : ¬ ((1 : ℝ) < 0) := by norm_num
    have hr : List.range 1 = [0] := rfl
    simp [fit_params, fitWinner, npSeed, restartFold, hr, restartStep,
      echoNM, constDE, updateBest, pickBest, mkFitResult, h1]
  · norm_num

/-- C3 witness: the amended theorem applied at a concrete instantiation,
with the inner hypotheses discharged at restart indices 1 and 2. -/
theorem fit_restart_start_vectors_witness :
    (restartFold echoSample echoNM okNanObj (25, 0, 50) defaultBounds
        (scipyBounds defaultBounds) (npSeed 7 ⟨0, 0⟩) 2
      = (⟨7, 3 * (2 - 1)⟩,
         (localResults echoSample echoNM okNanObj (25, 0, 50) defaultBounds
            (scipyBounds defaultBounds) 7 2).foldl updateBest none))
    ∧ restartStart echoSample (25, 0, 50) defaultBounds 7 0 = (25, 0, 50)
    ∧ restartStart echoSample (25, 0, 50) defaultBounds 7 1
        = ((npUniform echoSample defaultBounds.theta_deg.1 defaultBounds.theta_deg.2
              ⟨7, 3 * (1 - 1)⟩).1,
           (npUniform echoSample defaultBounds.M.1 defaultBounds.M.2 ⟨7, 3 * (1 - 1) + 1⟩).1,
           (npUniform echoSample defaultBounds.X.1 defaultBounds.X.2 ⟨7, 3 * (1 - 1) + 2⟩).1)
    ∧ (⟨7, 3 * (1 - 1)⟩ : RngState) ≠ ⟨7, 3 * (2 - 1)⟩ := by
  have h := fit_restart_start_vectors echoSample echoNM okNanObj (25, 0, 50) defaultBounds
    (scipyBounds defaultBounds) ⟨0, 0⟩ 7 2 (by norm_num)
  exact ⟨h.1, h.2.1, h.2.2.1 1 (by norm_num), h.2.2.2 1 2 (by norm_num) (by norm_num) (by norm_num)⟩

/-- C4: `fit_params` is deterministic: its output is a pure function of the
observed points, `n_samples`, bounds, `n_restarts`, `initial_guess` and
`seed`; in particular the ambient global random state at call time is
irrelevant, because `np.random.seed(seed)` resets it before any draw, and
the differential-evolution pass is seeded from the same `seed`. -/
theorem fit_params_deterministic (sample : ℕ → ℕ → ℝ)
    (nelderMead : ((ℝ × ℝ × ℝ) → Except String PyVal) → (ℝ × ℝ × ℝ) → List (ℝ × ℝ) → OptResult)
    (diffEvo : ((ℝ × ℝ × ℝ) → Except String PyVal) → List (ℝ × ℝ) → ℕ → OptResult)
    (g1 g2 : RngState) (xo yo : List ℝ) (ig : Option (ℝ × ℝ × ℝ)) (ns : ℕ)
    (bounds : Option Bounds3) (nr seed : ℕ) :
    fit_params sample nelderMead diffEvo g1 xo yo ig ns bounds nr seed =
      fit_params sample nelderMead diffEvo g2 xo yo ig ns bounds nr seed := rfl

/-- C8: a bounds violation of the winning parameters is non-fatal: the run
still returns, the returned record carries the winning `theta_deg`, its
radian conversion, `M`, `X` and the winning loss unaltered — identical
packaging whether validation passes or not — and the warning is emitted
exactly when `validate_bounds` is false on the winner. -/
theorem fit_validation_warning_nonfatal (sample : ℕ → ℕ → ℝ)
    (nelderMead : ((ℝ × ℝ × ℝ) → Except String PyVal) → (ℝ × ℝ × ℝ) → List (ℝ × ℝ) → OptResult)
    (diffEvo : ((ℝ × ℝ × ℝ) → Except String PyVal) → List (ℝ × ℝ) → ℕ → OptResult)
    (g0 : RngState) (xo yo : List ℝ) (ig : Option (ℝ × ℝ × ℝ)) (ns : ℕ)
    (bounds : Option Bounds3) (nr seed : ℕ) :
    (fit_params sample nelderMead diffEvo g0 xo yo ig ns bounds nr seed).result.theta_deg
      = (fitWinner sample nelderMead diffEvo g0 xo yo ig ns bounds nr seed).x.1 ∧
    (fit_params sample nelderMead diffEvo g0 xo yo ig ns bounds nr seed).result.theta_rad
      = deg_to_rad (fitWinner sample nelderMead diffEvo g0 xo yo ig ns bounds nr seed).x.1 ∧
    (fit_params sample nelderMead diffEvo g0 xo yo ig ns bounds nr seed).result.M
      = (fitWinner sample nelderMead diffEvo g0 xo yo ig ns bounds nr seed).x.2.1 ∧
    (fit_params sample nelderMead diffEvo g0 xo yo ig ns bounds nr seed).result.X
      = (fitWinner sample nelderMead diffEvo g0 xo yo ig ns bounds nr seed).x.2.2 ∧
    (fit_params sample nelderMead diffEvo g0 xo yo ig ns bounds nr seed).result.l1
      = (fitWinner sample nelderMead diffEvo g0 xo yo ig ns bounds nr seed).fval ∧
    ((fit_params sample nelderMead diffEvo g0 xo yo ig ns bounds nr seed).warned ↔
      ¬ validate_bounds (fitWinner sample nelderMead diffEvo g0 xo yo ig ns bounds nr seed).x.1
        (fitWinner sample nelderMead diffEvo g0 xo yo ig ns bounds nr seed).x.2.1
        (fitWinner sample nelderMead diffEvo g0 xo yo ig ns bounds nr seed).x.2.2) :=
  ⟨rfl, rfl, rfl, rfl, rfl, Iff.rfl⟩

/-- C6 witness at a concrete input. -/
theorem l1_loss_nonneg_witness :
    ∃ v : ℝ, l1_loss (25, 0, 50) [6, 7] [3, 4] [5, 6] = .ok (.num v) ∧ 0 ≤ v ∧
      ((∀ o ∈ (([3, 4] : List ℝ).zip ([5, 6] : List ℝ)), ∃ u ∈ ([6, 7] : List ℝ),
        predictPoint (25 : ℝ) 0 50 u = o) → v = 0) :=
  l1_loss_nonneg_and_zero_on_curve (25, 0, 50) [6, 7] [3, 4] [5, 6] (by simp) (by simp)

/-! ## Theorems for claim C5 -/

theorem exp_term_le (M u : ℝ) (hM1 : -0.05 < M) (hM2 : M < 0.05) (hu1 : 6 ≤ u)
    (hu2 : u ≤ 60) : Real.exp (M * |u|) ≤ 21 := by
  have habs : |u| ≤ 60 := by
    rw [abs_le]
    constructor <;> linarith
  have h0 : 0 ≤ |u| := abs_nonneg u
  have h1 : M * |u| ≤ 3 := by nlinarith
  have h2 : Real.exp (M * |u|) ≤ Real.exp 3 := Real.exp_le_exp.mpr h1
  have h4 : Real.exp 3 = Real.exp 1 ^ 3 := by
    rw [← Real.exp_nat_mul]
    norm_num
  have h5 : Real.exp 1 ^ 3 < 2.7182818286 ^ 3 :=
    pow_lt_pow_left₀ Real.exp_one_lt_d9 (le_of_lt (Real.exp_pos 1)) (by norm_num)
  have h6 : (2.7182818286 : ℝ) ^ 3 < 21 := by norm_num
  linarith

theorem predictPoint_bounds (theta_deg M X u : ℝ) (hu1 : 6 ≤ u) (hu2 : u ≤ 60)
    (hM1 : -0.05 < M) (hM2 : M < 0.05) (hX1 : 0 < X) (hX2 : X < 100) :
    |(predictPoint theta_deg M X u).1| ≤ 181 ∧ |(predictPoint theta_deg M X u).2| ≤ 123 := by
  have hc : |Real.cos (deg_to_rad theta_deg)| ≤ 1 := Real.abs_cos_le_one _
  have hs : |Real.sin (deg_to_rad theta_deg)| ≤ 1 := Real.abs_sin_le_one _
  have hs3 : |Real.sin (0.3 * u)| ≤ 1 := Real.abs_sin_le_one _
  have he : Real.exp (M * |u|) ≤ 21 := exp_term_le M u hM1 hM2 hu1 hu2
  have hep : 0 < Real.exp (M * |u|) := Real.exp_pos _
  have habs : |u| ≤ 60 := by
    rw [abs_le]
    constructor <;> linarith
  have h1 : |u * Real.cos (deg_to_rad theta_deg)| ≤ 60 := by
    rw [abs_mul]
    calc |u| * |Real.cos (deg_to_rad theta_deg)| ≤ 60 * 1 :=
      mul_le_mul habs hc (abs_nonneg _) (by norm_num)
    _ = 60 := by norm_num
  have hA : Real.exp (M * |u|) * |Real.sin (0.3 * u)| ≤ 21 := by
    calc Real.exp (M * |u|) * |Real.sin (0.3 * u)| ≤ 21 * 1 :=
      mul_le_mul he hs3 (abs_nonneg _) (by norm_num)
    _ = 21 := by norm_num
  have h2 : |Real.exp (M * |u|) * Real.sin (0.3 * u) * Real.sin (deg_to_rad theta_deg)| ≤ 21 := by
    rw [abs_mul, abs_mul, abs_of_pos hep]
    calc Real.exp (M * |u|) * |Real.sin (0.3 * u)| * |Real.sin (deg_to_rad theta_deg)|
        ≤ 21 * 1 := mul_le_mul hA hs (abs_nonneg _) (by norm_num)
    _ = 21 := by norm_num
  have h2c : |Real.exp (M * |u|) * Real.sin (0.3 * u) * Real.cos (deg_to_rad theta_deg)| ≤ 21 := by
    rw [abs_mul, abs_mul, abs_of_pos hep]
    calc Real.exp (M * |u|) * |Real.sin (0.3 * u)| * |Real.cos (deg_to_rad theta_deg)|
        ≤ 21 * 1 := mul_le_mul hA hc (abs_nonneg _) (by norm_num)
    _ = 21 := by norm_num
  have h1s : |u * Real.sin (deg_to_rad theta_deg)| ≤ 60 := by
    rw [abs_mul]
    calc |u| * |Real.sin (deg_to_rad theta_deg)| ≤ 60 * 1 :=
      mul_le_mul habs hs (abs_nonneg _) (by norm_num)
    _ = 60 := by norm_num
  obtain ⟨ha1, ha2⟩ := abs_le.mp h1
  obtain ⟨hb1, hb2⟩ := abs_le.mp h2
  obtain ⟨hb1c, hb2c⟩ := abs_le.mp h2c
  obtain ⟨hc1, hc2⟩ := abs_le.mp h1s
  constructor
  · show |u * Real.cos (deg_to_rad theta_deg) -
      Real.exp (M * |u|) * Real.sin (0.3 * u) * Real.sin (deg_to_rad theta_deg) + X| ≤ 181
    rw [abs_le]
    constructor <;> linarith
  · show |42 + u * Real.sin (deg_to_rad theta_deg) +
      Real.exp (M * |u|) * Real.sin (0.3 * u) * Real.cos (deg_to_rad theta_deg)| ≤ 123
    rw [abs_le]
    constructor <;> linarith

/-- C5: `predict` returns two arrays of the same length as `t`, computed
element-wise by the documented formulas (with `theta_deg` converted to
radians), and for parameters inside the validation bounds and `t` values in
`[6, 60]` every output is bounded (hence finite): `|x| ≤ 181` and
`|y| ≤ 123`. -/
theorem predict_elementwise_and_finite (t : List ℝ) (theta_deg M X : ℝ) :
    (predict t theta_deg M X).1.length = t.length ∧
    (predict t theta_deg M X).2.length = t.length ∧
    (∀ i, i < t.length →
      (predict t theta_deg M X).1.getD i 0 =
        t.getD i 0 * Real.cos (deg_to_rad theta_deg)
          - Real.exp (M * |t.getD i 0|) * Real.sin (0.3 * t.getD i 0)
              * Real.sin (deg_to_rad theta_deg) + X ∧
      (predict t theta_deg M X).2.getD i 0 =
        42 + t.getD i 0 * Real.sin (deg_to_rad theta_deg)
          + Real.exp (M * |t.getD i 0|) * Real.sin (0.3 * t.getD i 0)
              * Real.cos (deg_to_rad theta_deg)) ∧
    ((∀ u ∈ t, 6 ≤ u ∧ u ≤ 60) → 0 < theta_deg → theta_deg < 50 →
      -0.05 < M → M < 0.05 → 0 < X → X < 100 →
      (∀ v ∈ (predict t theta_deg M X).1, |v| ≤ 181) ∧
      (∀ v ∈ (predict t theta_deg M X).2, |v| ≤ 123)) := by
  refine ⟨by simp [predict], by simp [predict], ?_, ?_⟩
  · intro i hi
    constructor
    · rw [List.getD_eq_getElem _ _ (by simpa [predict] using hi)]
      simp only [predict, List.getElem_map]
      rw [List.getD_eq_getElem _ _ hi]
      rfl
    · rw [List.getD_eq_getElem _ _ (by simpa [predict] using hi)]
      simp only [predict, List.getElem_map]
      rw [List.getD_eq_getElem _ _ hi]
      rfl
  · intro ht h1 h2 h3 h4 h5 h6
    constructor
    · intro v hv
      simp only [predict, List.mem_map] at hv
      obtain ⟨u, hu, rfl⟩ := hv
      exact (predictPoint_bounds theta_deg M X u (ht u hu).1 (ht u hu).2 h3 h4 h5 h6).1
    · intro v hv
      simp only [predict, List.mem_map] at hv
      obtain ⟨u, hu, rfl⟩ := hv
      exact (predictPoint_bounds theta_deg M X u (ht u hu).1 (ht u hu).2 h3 h4 h5 h6).2

/-- C5 witness at a concrete input. -/
theorem predict_elementwise_witness :
    (predict [6] (25 : ℝ) 0 50).1.length = ([6] : List ℝ).length ∧
    (∀ v ∈ (predict [6] (25 : ℝ) 0 50).1, |v| ≤ 181) ∧
    (∀ v ∈ (predict [6] (25 : ℝ) 0 50).2, |v| ≤ 123) := by
  have h := predict_elementwise_and_finite [6] (25 : ℝ) 0 50
  have hb := h.2.2.2
    (by
      intro u hu
      rw [List.mem_singleton] at hu
      subst hu
      constructor <;> norm_num)
    (by norm_num) (by norm_num) (by norm_num) (by norm_num) (by norm_num) (by norm_num)
  exact ⟨h.1, hb.1, hb.2⟩

/-! ## Theorems for claims C9 and C10 -/

/-- C9: `load_data` fails exactly when the source is missing, a required
column is absent, there are fewer than 10 rows, or the `x`/`y` columns hold
a missing value — each condition with its own distinguishable message, in
the source's check order — and returns the data on every other input. -/
theorem load_data_validation (src : Option PyDF) (path : String) :
    (src = none → load_data src path = .error ("Data file not found: " ++ path)) ∧
    (∀ df, src = some df →
      ((¬ ("x" ∈ df.header ∧ "y" ∈ df.header)) →
        load_data src path = .error "CSV must contain \x27x\x27 and \x27y\x27 columns") ∧
      (("x" ∈ df.header ∧ "y" ∈ df.header) → df.rows.length < 10 →
        load_data src path = .error ("Insufficient data: " ++ toString df.rows.length ++
          " rows (minimum 10 required)")) ∧
      (("x" ∈ df.header ∧ "y" ∈ df.header) → ¬ df.rows.length < 10 →
        ((getCol df "x" ++ getCol df "y").any fun v => v.isNone) = true →
        load_data src path = .error "Data contains NaN values") ∧
      (("x" ∈ df.header ∧ "y" ∈ df.header) → ¬ df.rows.length < 10 →
        ((getCol df "x" ++ getCol df "y").any fun v => v.isNone) = false →
        load_data src path = .ok ⟨["x", "y"], df.rows.map fun r =>
          [r.getD (df.header.indexOf "x") none, r.getD (df.header.indexOf "y") none]⟩)) ∧
    ((∃ e, load_data src path = .error e) ↔
      (src = none ∨ ∃ df, src = some df ∧
        (¬ ("x" ∈ df.header ∧ "y" ∈ df.header) ∨ df.rows.length < 10 ∨
          ((getCol df "x" ++ getCol df "y").any fun v => v.isNone) = true))) := by
  refine ⟨?_, ?_, ?_, ?_⟩
  · intro h
    subst h
    rfl
  · intro df h
    subst h
    refine ⟨?_, ?_, ?_, ?_⟩
    · intro hcols
      simp [load_data, hcols]
    · intro hcols hlen
      simp [load_data, hcols, hlen]
    · intro hcols hlen hnan
      simp [load_data, hcols, hlen, hnan]
    · intro hcols hlen hnan
      simp [load_data, hcols, hlen, hnan]
  · rintro ⟨e, he⟩
    cases src with
    | none => exact Or.inl rfl
    | some df =>
      refine Or.inr ⟨df, rfl, ?_⟩
      by_contra hno
      have hcols : ("x" ∈ df.header ∧ "y" ∈ df.header) := by
        by_contra hc
        exact hno (Or.inl hc)
      have hlen : ¬ df.rows.length < 10 := fun h => hno (Or.inr (Or.inl h))
      have hnan' : ((getCol df "x" ++ getCol df "y").any fun v => v.isNone) = false := by
        cases hb : ((getCol df "x" ++ getCol df "y").any fun v => v.isNone) with
        | false => rfl
        | true => exact absurd (Or.inr (Or.inr hb)) hno
      have hok : load_data (some df) path = .ok ⟨["x", "y"], df.rows.map fun r =>
          [r.getD (df.header.indexOf "x") none, r.getD (df.header.indexOf "y") none]⟩ := by
        simp [load_data, hcols, hlen, hnan']
      rw [hok] at he
      simp at he
  · rintro (h | ⟨df, rfl, hcond⟩)
    · subst h
      exact ⟨_, rfl⟩
    · rcases hcond with h | h | h
      · exact ⟨"CSV must contain \x27x\x27 and \x27y\x27 columns", by simp [load_data, h]⟩
      · by_cases hcols : ("x" ∈ df.header ∧ "y" ∈ df.header)
        · exact ⟨"Insufficient data: " ++ toString df.rows.length ++
            " rows (minimum 10 required)", by simp [load_data, hcols, h]⟩
        · exact ⟨"CSV must contain \x27x\x27 and \x27y\x27 columns", by simp [load_data, hcols]⟩
      · by_cases hcols : ("x" ∈ df.header ∧ "y" ∈ df.header)
        · by_cases hlen : df.rows.length < 10
          · exact ⟨"Insufficient data: " ++ toString df.rows.length ++
              " rows (minimum 10 required)", by simp [load_data, hcols, hlen]⟩
          · exact ⟨"Data contains NaN values", by simp [load_data, hcols, hlen, h]⟩
        · exact ⟨"CSV must contain \x27x\x27 and \x27y\x27 columns", by simp [load_data, hcols]⟩

/-- A concrete frame missing the required columns. -/
def dfNoCols : PyDF := { header := ["a"], rows := [] }

/-- C9 witness: the characterization applied to a concrete frame without an
`x` column, discharging the missing-column hypothesis. -/
theorem load_data_validation_witness :
    load_data (some dfNoCols) "data.csv"
      = .error "CSV must contain \x27x\x27 and \x27y\x27 columns" :=
  ((load_data_validation (some dfNoCols) "data.csv").2.1 dfNoCols rfl).1 (by decide)

/-- C10: on success `load_data` returns a table whose header is exactly
`["x", "y"]`, whose rows are the source rows in their original order
projected to the `x` and `y` cells; any extra columns are dropped. -/
theorem load_data_projects_xy (df : PyDF) (path : String)
    (hc : "x" ∈ df.header ∧ "y" ∈ df.header)
    (hlen : ¬ df.rows.length < 10)
    (hnan : ((getCol df "x" ++ getCol df "y").any fun v => v.isNone) = false) :
    ∃ out, load_data (some df) path = .ok out ∧
      out.header = ["x", "y"] ∧
      out.rows.length = df.rows.length ∧
      ∀ i, i < df.rows.length →
        out.rows.getD i [] =
          [(df.rows.getD i []).getD (df.header.indexOf "x") none,
           (df.rows.getD i []).getD (df.header.indexOf "y") none] := by
  refine ⟨⟨["x", "y"], df.rows.map fun r =>
      [r.getD (df.header.indexOf "x") none, r.getD (df.header.indexOf "y") none]⟩,
    by simp [load_data, hc, hlen, hnan], rfl, by simp, ?_⟩
  intro i hi
  rw [List.getD_eq_getElem _ _ (by simpa using hi), List.getElem_map,
    List.getD_eq_getElem _ _ hi]

/-- A concrete frame with an extra column and ten rows. -/
def dfSample : PyDF :=
  { header := ["x", "y", "z"]
    rows := List.replicate 10 [some 1, some 2, some 3] }

/-- C10 witness: the projection theorem applied to a concrete frame with an
extra `z` column, discharging all three validation hypotheses. -/
theorem load_data_projects_xy_witness :
    ∃ out, load_data (some dfSample) "data.csv" = .ok out ∧
      out.header = ["x", "y"] ∧
      out.rows.length = dfSample.rows.length ∧
      ∀ i, i < dfSample.rows.length →
        out.rows.getD i [] =
          [(dfSample.rows.getD i []).getD (dfSample.header.indexOf "x") none,
           (dfSample.rows.getD i []).getD (dfSample.header.indexOf "y") none] :=
  load_data_projects_xy dfSample "data.csv" (by decide) (by norm_num [dfSample]) (by rfl)

end

end CurveFit
